import Mathlib

/-!
Verification development for the freelance tax estimator
(`src/tax_calculator.py` together with the static reference data in
`src/data/ca_tax_data.py`).

Modelling conventions:
* Python floats are modelled as exact rationals (`ℚ`); `round(x, 2)` is
  modelled by `rnd2`, rounding to the nearest multiple of `1/100` with
  ties going to the even cent (Python's round-half-even rule).
* `float('inf')` bracket thresholds are modelled by `Option ℚ` with
  `none` standing for the infinite threshold.
* The `ValueError` raised for an unknown province code is modelled by
  returning `none` from `calculate_tax_breakdown`; a successful call
  returns `some` of the full breakdown record.
* Python would raise `IndexError` on an empty bracket list
  (`brackets[0][1]` / `brackets[-1][1]`); the embedding totalises those
  reads with a default rate of `0`.  All registered tables are non-empty,
  so the default is never exercised on the shipped data.
-/

namespace FreelanceTax

/-- Round-half-even to an integer: the model of Python's `round` applied to
an exact rational value.  `q` is rounded to the nearest integer, with a
fractional part of exactly `1/2` resolved towards the even integer. -/
def rhe (q : ℚ) : ℤ :=
  if q - ⌊q⌋ < 1/2 then ⌊q⌋
  else if 1/2 < q - ⌊q⌋ then ⌊q⌋ + 1
  else if ⌊q⌋ % 2 = 0 then ⌊q⌋ else ⌊q⌋ + 1

/-- Model of Python's `round(x, 2)`: round to the nearest cent, half to even. -/
def rnd2 (q : ℚ) : ℚ := (rhe (q * 100) : ℚ) / 100

/-! ## Bracket tables (`src/data/ca_tax_data.py`) -/

/-- One `(threshold, rate)` pair of a bracket table; `thr = none` models the
`float('inf')` upper threshold of the top bracket. -/
structure Bracket where
  thr : Option ℚ
  rate : ℚ
deriving DecidableEq

/-- `FEDERAL_TAX_BRACKETS` from `src/data/ca_tax_data.py`. -/
def FEDERAL_TAX_BRACKETS : List Bracket :=
  [⟨some 57375, 0.145⟩, ⟨some 114750, 0.205⟩, ⟨some 177882, 0.26⟩,
   ⟨some 253414, 0.29⟩, ⟨none, 0.33⟩]

/-- `PROVINCIAL_TAX_BRACKETS` from `src/data/ca_tax_data.py`, as an
association list in the dictionary's insertion order. -/
def PROVINCIAL_TAX_BRACKETS : List (String × List Bracket) :=
  [("AB", [⟨some 60000, 0.08⟩, ⟨some 151234, 0.10⟩, ⟨some 181481, 0.12⟩,
           ⟨some 241974, 0.13⟩, ⟨some 362961, 0.14⟩, ⟨none, 0.15⟩]),
   ("BC", [⟨some 49279, 0.0506⟩, ⟨some 98560, 0.077⟩, ⟨some 113158, 0.105⟩,
           ⟨some 137407, 0.1229⟩, ⟨some 186306, 0.147⟩, ⟨some 259829, 0.168⟩,
           ⟨none, 0.205⟩]),
   ("MB", [⟨some 47564, 0.108⟩, ⟨some 101200, 0.1275⟩, ⟨none, 0.174⟩]),
   ("NB", [⟨some 51306, 0.094⟩, ⟨some 102614, 0.14⟩, ⟨some 190060, 0.16⟩,
           ⟨none, 0.195⟩]),
   ("NL", [⟨some 44192, 0.087⟩, ⟨some 88382, 0.145⟩, ⟨some 157792, 0.158⟩,
           ⟨some 220910, 0.178⟩, ⟨some 282214, 0.198⟩, ⟨some 564429, 0.208⟩,
           ⟨some 1128858, 0.213⟩, ⟨none, 0.218⟩]),
   ("NS", [⟨some 30507, 0.0879⟩, ⟨some 61015, 0.1495⟩, ⟨some 95883, 0.1667⟩,
           ⟨some 154650, 0.175⟩, ⟨none, 0.21⟩]),
   ("NT", [⟨some 51964, 0.059⟩, ⟨some 103930, 0.086⟩, ⟨some 168967, 0.122⟩,
           ⟨none, 0.1405⟩]),
   ("NU", [⟨some 54707, 0.04⟩, ⟨some 109413, 0.07⟩, ⟨some 177881, 0.09⟩,
           ⟨none, 0.115⟩]),
   ("ON", [⟨some 52886, 0.0505⟩, ⟨some 105775, 0.0915⟩, ⟨some 150000, 0.1116⟩,
           ⟨some 220000, 0.1216⟩, ⟨none, 0.1316⟩]),
   ("PE", [⟨some 33328, 0.095⟩, ⟨some 64656, 0.1347⟩, ⟨some 105000, 0.166⟩,
           ⟨some 140000, 0.1762⟩, ⟨none, 0.19⟩]),
   ("QC", [⟨some 53255, 0.14⟩, ⟨some 106495, 0.19⟩, ⟨some 129590, 0.24⟩,
           ⟨none, 0.2575⟩]),
   ("SK", [⟨some 53463, 0.105⟩, ⟨some 152750, 0.125⟩, ⟨none, 0.145⟩]),
   ("YT", [⟨some 57375, 0.064⟩, ⟨some 114750, 0.09⟩, ⟨some 177882, 0.109⟩,
           ⟨some 500000, 0.128⟩, ⟨none, 0.15⟩])]

/-- Model of `PROVINCIAL_TAX_BRACKETS.get(province_code, [])`. -/
def provincialLookup (code : String) : List Bracket :=
  (PROVINCIAL_TAX_BRACKETS.lookup code).getD []

/-- `BASIC_PERSONAL_AMOUNT` from `src/data/ca_tax_data.py`. -/
def BASIC_PERSONAL_AMOUNT : List (String × ℚ) :=
  [("FEDERAL", 16129), ("AB", 22323), ("BC", 12399), ("MB", 16194),
   ("NB", 12891), ("NL", 10839), ("NS", 9419), ("NT", 15810),
   ("NU", 17788), ("ON", 12747), ("PE", 12500), ("QC", 18055),
   ("SK", 18991), ("YT", 15000)]

/-- Model of `BASIC_PERSONAL_AMOUNT.get(code, 0)` (and of the always-present
`['FEDERAL']` access). -/
def bpaLookup (code : String) : ℚ :=
  (BASIC_PERSONAL_AMOUNT.lookup code).getD 0

/-- `CPP_DATA['EXEMPTION_AMOUNT']`. -/
def EXEMPTION_AMOUNT : ℚ := 3500
/-- `CPP_DATA['YMPE_CEILING']`. -/
def YMPE_CEILING : ℚ := 71300
/-- `CPP_DATA['YAMPE_CEILING']`. -/
def YAMPE_CEILING : ℚ := 81200
/-- `CPP_DATA['SELF_EMPLOYED_RATE_BASE']`. -/
def SELF_EMPLOYED_RATE_BASE : ℚ := 0.119
/-- `CPP_DATA['SELF_EMPLOYED_RATE_CPP2']`. -/
def SELF_EMPLOYED_RATE_CPP2 : ℚ := 0.08

/-! ## Marginal tax engine (`calculate_marginal_tax`, lines 4-46) -/

/-- The bracket-walking loop of `calculate_marginal_tax` (lines 26-40).
State: accumulated `total` tax, `remaining` income, `prev`ious threshold.
For an infinite (`none`) threshold the band width `min remaining ∞` is
`remaining` itself, after which the Python loop always hits the
`remaining <= 0` break, so the iteration over an infinite bracket is
always the last one. -/
def taxLoop (total remaining prev : ℚ) : List Bracket → ℚ
  | [] => total
  | b :: bs =>
    match b.thr with
    | none => if 0 < remaining then total + remaining * b.rate else total
    | some t =>
      if 0 < min remaining (t - prev) then
        if remaining - min remaining (t - prev) ≤ 0 then
          total + min remaining (t - prev) * b.rate
        else
          taxLoop (total + min remaining (t - prev) * b.rate)
            (remaining - min remaining (t - prev)) t bs
      else
        if remaining ≤ 0 then total else taxLoop total remaining t bs

/-- `calculate_marginal_tax(taxable_income, brackets, bpa_amount)`
(`src/tax_calculator.py` lines 4-46): walk the brackets, subtract the
basic-personal-amount credit valued at the lowest (first) rate, clamp at
zero and round to cents.  `brackets[0][1]` on the empty list is totalised
to rate `0`. -/
def calculate_marginal_tax (taxable_income : ℚ) (brackets : List Bracket)
    (bpa_amount : ℚ) : ℚ :=
  let lowest_rate := (brackets.headD ⟨none, 0⟩).rate
  let bpa_tax_credit := bpa_amount * lowest_rate
  let total_tax := taxLoop 0 taxable_income 0 brackets
  rnd2 (max 0 (total_tax - bpa_tax_credit))

/-- Validity of a bracket table whose thresholds continue strictly above
`p`: positive-width bands, non-negative rates, and exactly one infinite
threshold, in final position.  `validFrom 0` is the spec's §3 BracketTable
invariant. -/
def validFrom (p : ℚ) : List Bracket → Bool
  | [] => false
  | b :: bs =>
    match b.thr with
    | none => decide (0 ≤ b.rate) && bs.isEmpty
    | some t => decide (0 ≤ b.rate) && decide (p < t) && validFrom t bs

/-- Per-band closed form of the bracket walk: each bracket contributes its
rate times the part of the remaining income that falls in its band. -/
def bandSum (r p : ℚ) : List Bracket → ℚ
  | [] => 0
  | b :: bs =>
    match b.thr with
    | none => b.rate * max 0 r
    | some t => b.rate * max 0 (min r (t - p)) + bandSum (r - (t - p)) t bs

/-! ## Pension contribution engine (`calculate_cpp_self_employed`, lines 49-80) -/

/-- `calculate_cpp_self_employed(net_income)` (`src/tax_calculator.py`
lines 49-80): tier-1 base contribution up to the YMPE ceiling above the
exemption, tier-2 contribution on the YMPE–YAMPE band only when net income
exceeds the YMPE ceiling, total rounded to cents. -/
def calculate_cpp_self_employed (net_income : ℚ) : ℚ :=
  let contributory_earnings_base := max 0 (min net_income YMPE_CEILING - EXEMPTION_AMOUNT)
  let total_cpp := contributory_earnings_base * SELF_EMPLOYED_RATE_BASE
  let total_cpp :=
    if YMPE_CEILING < net_income then
      total_cpp + (min net_income YAMPE_CEILING - YMPE_CEILING) * SELF_EMPLOYED_RATE_CPP2
    else total_cpp
  rnd2 total_cpp

/-- The same computation with the tier-2 branch unconditionally engaged:
used to state continuity at the tier-1 ceiling, where the tier-2 band
width `min net YAMPE - YMPE` is zero. -/
def cpp_with_tier2_branch (net_income : ℚ) : ℚ :=
  rnd2 (max 0 (min net_income YMPE_CEILING - EXEMPTION_AMOUNT) * SELF_EMPLOYED_RATE_BASE
    + (min net_income YAMPE_CEILING - YMPE_CEILING) * SELF_EMPLOYED_RATE_CPP2)

/-! ## Rate reporter (`get_marginal_rate`, lines 83-104) -/

/-- The loop of `get_marginal_rate`: Python returns the rate of the first
bracket whose threshold the income does not strictly exceed (any income
compares `≤` against the infinite threshold), and falls off the loop
otherwise. -/
def gmrLoop (income : ℚ) : List Bracket → Option ℚ
  | [] => none
  | b :: bs =>
    match b.thr with
    | none => some b.rate
    | some t => if t < income then gmrLoop income bs else some b.rate

/-- `get_marginal_rate(income, brackets)` (`src/tax_calculator.py`
lines 83-104).  When the loop finds no bracket, Python returns
`brackets[-1][1]`; the empty-list `IndexError` is totalised to rate 0. -/
def get_marginal_rate (income : ℚ) (brackets : List Bracket) : ℚ :=
  (gmrLoop income brackets).getD ((brackets.getLast?.map Bracket.rate).getD 0)

/-- The spec's §4.3 contract, written from its words: the rate of the
first bracket whose threshold is ≥ income (an income exactly at a finite
threshold takes the band ending at that threshold), or the final
infinite-threshold bracket's rate once income exceeds every finite
threshold. -/
def marginalRateSpec (income : ℚ) : List Bracket → ℚ
  | [] => 0
  | b :: bs =>
    match b.thr with
    | none => b.rate
    | some t => if income ≤ t then b.rate else marginalRateSpec income bs

/-! ## Breakdown orchestrator (`calculate_tax_breakdown`, lines 108-177) -/

/-- The result record returned by `calculate_tax_breakdown` (the Python
dictionary of lines 164-177), one rational field per dictionary key. -/
structure TaxBreakdown where
  net_income : ℚ
  cpp_contribution : ℚ
  cpp_deduction : ℚ
  taxable_income : ℚ
  federal_tax : ℚ
  provincial_tax : ℚ
  total_income_tax : ℚ
  total_remittance : ℚ
  take_home_pay : ℚ
  total_tax_paid : ℚ
  average_tax_rate : ℚ
  marginal_tax_rate : ℚ
deriving DecidableEq

/-- Fallback record used only to totalise `Option.getD` reads in closed
statements. -/
def emptyBreakdown : TaxBreakdown := ⟨0, 0, 0, 0, 0, 0, 0, 0, 0, 0, 0, 0⟩

/-- The successful branch of `calculate_tax_breakdown` (steps 1-9 and the
returned record, lines 110-177), for a given non-empty provincial bracket
table.  In the Python source the steps preceding the invalid-province
`raise` (net income, CPP, taxable income, federal tax) are computed before
the check; they are pure, so hoisting the province guard in front of them
is unobservable. -/
def mkBreakdown (gross_income total_deductible_expenses : ℚ) (province_code : String)
    (provincial_brackets : List Bracket) : TaxBreakdown :=
  let income_rounded := rnd2 gross_income
  let expenses_rounded := rnd2 total_deductible_expenses
  let net_income := rnd2 (max 0 (income_rounded - expenses_rounded))
  let cpp_contribution := calculate_cpp_self_employed net_income
  let cpp_deduction := cpp_contribution * 0.5
  let taxable_income := max 0 (net_income - cpp_deduction)
  let fed_bpa := bpaLookup "FEDERAL"
  let federal_tax := calculate_marginal_tax taxable_income FEDERAL_TAX_BRACKETS fed_bpa
  let prov_bpa := bpaLookup province_code
  let provincial_tax := calculate_marginal_tax taxable_income provincial_brackets prov_bpa
  let total_income_tax := federal_tax + provincial_tax
  let total_remittance := total_income_tax + cpp_contribution
  let take_home_pay := net_income - total_remittance
  let total_tax_paid := federal_tax + provincial_tax + cpp_contribution
  let average_tax_rate :=
    if 0 < net_income then rnd2 (total_tax_paid / net_income * 100) else 0
  let marginal_federal_rate := get_marginal_rate taxable_income FEDERAL_TAX_BRACKETS
  let marginal_provincial_rate := get_marginal_rate taxable_income provincial_brackets
  let marginal_tax_rate := rnd2 ((marginal_federal_rate + marginal_provincial_rate) * 100)
  { net_income, cpp_contribution, cpp_deduction, taxable_income,
    federal_tax, provincial_tax, total_income_tax, total_remittance,
    take_home_pay, total_tax_paid, average_tax_rate, marginal_tax_rate }

/-- `calculate_tax_breakdown(gross_income, total_deductible_expenses,
province_code)` (`src/tax_calculator.py` lines 108-177).  The
`raise ValueError("Invalid province code provided.")` taken when
`PROVINCIAL_TAX_BRACKETS.get(province_code, [])` is empty is modelled as
`none`; a successful run returns `some` of the full record. -/
def calculate_tax_breakdown (gross_income total_deductible_expenses : ℚ)
    (province_code : String) : Option TaxBreakdown :=
  match provincialLookup province_code with
  | [] => none
  | pb :: pbs =>
    some (mkBreakdown gross_income total_deductible_expenses province_code (pb :: pbs))

/-- The 13 keys of `PROVINCIAL_TAX_BRACKETS`. -/
def registeredCodes : List String :=
  ["AB", "BC", "MB", "NB", "NL", "NS", "NT", "NU", "ON", "PE", "QC", "SK", "YT"]

/-- Decidable shape check used to discharge the per-province obligations
of `take_home_core`: non-empty table, finite first threshold ≥ 1 with
non-negative rate, BPA ≥ 1, all rates ≤ 0.2575. -/
def tableOK : List Bracket → ℚ → Bool
  | [], _ => false
  | b :: bs, bpa =>
    match b.thr with
    | none => false
    | some t1 =>
      decide ((1:ℚ) ≤ t1) && decide (0 ≤ b.rate) && decide ((1:ℚ) ≤ bpa)
        && (b :: bs).all fun x => decide (x.rate ≤ 0.2575)

/-- Record returned for gross income 0, expenses 0, code "ON": every
monetary field is 0 and the reported marginal rate is the bottom combined
band, 14.5% + 5.05% = 19.55%. -/
def zeroBreakdownON : TaxBreakdown := ⟨0, 0, 0, 0, 0, 0, 0, 0, 0, 0, 0, 19.55⟩

/-- Record returned for gross income 57400, expenses 0, code "ON": the CPP
deduction moves taxable income (54192.95) back below the 57375 federal
threshold crossed by net income (57400), so the reported combined marginal
rate is 14.5% + 9.15% = 23.65%. -/
def crossBreakdownON : TaxBreakdown :=
  ⟨57400, 6414.10, 3207.05, 54192.95, 5519.27, 2146.61, 7665.88, 14079.98,
   43320.02, 14079.98, 24.53, 23.65⟩

/-- Model of the effective-rate computation (`src/tax_calculator.py`
lines 149-153): guarded division, zero when net income is not positive. -/
def average_tax_rate_calc (total_tax_paid net_income : ℚ) : ℚ :=
  if 0 < net_income then rnd2 (total_tax_paid / net_income * 100) else 0

/-! ## Lemmas and theorems -/

theorem rhe_ge_floor (q : ℚ) : ⌊q⌋ ≤ rhe q := by
  unfold rhe
  split_ifs <;> omega

theorem rhe_le_floor_add_one (q : ℚ) : rhe q ≤ ⌊q⌋ + 1 := by
  unfold rhe
  split_ifs <;> omega

theorem rhe_mono {x y : ℚ} (h : x ≤ y) : rhe x ≤ rhe y := by
  have hf : ⌊x⌋ ≤ ⌊y⌋ := Int.floor_le_floor h
  rcases eq_or_lt_of_le hf with heq | hlt
  · unfold rhe
    rw [← heq]
    split_ifs <;> first | omega | linarith
  · calc rhe x ≤ ⌊x⌋ + 1 := rhe_le_floor_add_one x
    _ ≤ ⌊y⌋ := by omega
    _ ≤ rhe y := rhe_ge_floor y

theorem rhe_le_half (q : ℚ) : (rhe q : ℚ) ≤ q + 1/2 := by
  have h1 : (⌊q⌋ : ℚ) ≤ q := Int.floor_le q
  unfold rhe
  split_ifs <;> push_cast <;> linarith

theorem rhe_nonneg {q : ℚ} (h : 0 ≤ q) : 0 ≤ rhe q := by
  have h1 : 0 ≤ ⌊q⌋ := Int.floor_nonneg.mpr h
  calc (0:ℤ) ≤ ⌊q⌋ := h1
  _ ≤ rhe q := rhe_ge_floor q

theorem rhe_intCast (n : ℤ) : rhe (n : ℚ) = n := by
  unfold rhe
  simp

theorem rnd2_mono {x y : ℚ} (h : x ≤ y) : rnd2 x ≤ rnd2 y := by
  unfold rnd2
  have hm : rhe (x * 100) ≤ rhe (y * 100) := rhe_mono (by linarith)
  have : ((rhe (x * 100) : ℤ) : ℚ) ≤ ((rhe (y * 100) : ℤ) : ℚ) := by exact_mod_cast hm
  linarith

theorem rnd2_nonneg {q : ℚ} (h : 0 ≤ q) : 0 ≤ rnd2 q := by
  unfold rnd2
  have h1 : 0 ≤ rhe (q * 100) := rhe_nonneg (by linarith)
  have h2 : (0 : ℚ) ≤ (rhe (q * 100) : ℚ) := by exact_mod_cast h1
  linarith

theorem rnd2_le (q : ℚ) : rnd2 q ≤ q + 1/200 := by
  unfold rnd2
  have h := rhe_le_half (q * 100)
  linarith

theorem rnd2_zero : rnd2 0 = 0 := by
  unfold rnd2
  have h : rhe ((0:ℚ) * 100) = (0:ℤ) := by
    rw [show ((0:ℚ) * 100) = ((0:ℤ) : ℚ) by norm_num]
    exact rhe_intCast 0
  rw [h]
  norm_num

/-- Every rounded value is an exact integer number of cents. -/
theorem rnd2_cent (q : ℚ) : ∃ n : ℤ, rnd2 q = n / 100 :=
  ⟨rhe (q * 100), rfl⟩

theorem taxLoop_shift (bs : List Bracket) :
    ∀ total remaining prev : ℚ,
      taxLoop total remaining prev bs = total + taxLoop 0 remaining prev bs := by
  induction bs with
  | nil => intro total remaining prev; simp [taxLoop]
  | cons b bs ih =>
    intro total remaining prev
    cases hb : b.thr with
    | none => simp only [taxLoop, hb]; split_ifs <;> ring
    | some t =>
      simp only [taxLoop, hb]
      split_ifs with h1 h2
      · ring
      · rw [ih (total + min remaining (t - prev) * b.rate),
            ih (0 + min remaining (t - prev) * b.rate)]
        ring
      · ring
      · rw [ih total]

theorem bandSum_nonpos (bs : List Bracket) :
    ∀ r p : ℚ, r ≤ 0 → validFrom p bs = true → bandSum r p bs = 0 := by
  induction bs with
  | nil => intro r p _ _; simp [bandSum]
  | cons b bs ih =>
    intro r p hr hv
    cases hb : b.thr with
    | none =>
      simp only [bandSum, hb]
      rw [max_eq_left hr]
      ring
    | some t =>
      simp only [validFrom, hb, Bool.and_eq_true, decide_eq_true_eq] at hv
      obtain ⟨⟨hrate, hpt⟩, hv'⟩ := hv
      simp only [bandSum, hb]
      rw [ih (r - (t - p)) t (by linarith) hv',
          max_eq_left (le_trans (min_le_left _ _) hr)]
      ring

theorem taxLoop_eq_bandSum (bs : List Bracket) :
    ∀ r p : ℚ, validFrom p bs = true → taxLoop 0 r p bs = bandSum r p bs := by
  induction bs with
  | nil => intro r p hv; simp [validFrom] at hv
  | cons b bs ih =>
    intro r p hv
    cases hb : b.thr with
    | none =>
      simp only [validFrom, hb, Bool.and_eq_true, decide_eq_true_eq] at hv
      simp only [taxLoop, bandSum, hb]
      rcases le_or_lt r 0 with hr | hr
      · rw [if_neg (by linarith), max_eq_left hr]; ring
      · rw [if_pos hr, max_eq_right hr.le]; ring
    | some t =>
      simp only [validFrom, hb, Bool.and_eq_true, decide_eq_true_eq] at hv
      obtain ⟨⟨hrate, hpt⟩, hv'⟩ := hv
      have hw : 0 < t - p := by linarith
      simp only [taxLoop, bandSum, hb]
      rcases le_or_lt r 0 with hr | hr
      · rw [if_neg (by rw [not_lt, min_le_iff]; left; exact hr),
            if_pos hr, max_eq_left (le_trans (min_le_left _ _) hr),
            bandSum_nonpos bs _ t (by linarith) hv']
        ring
      · rcases le_or_lt r (t - p) with hrw | hrw
        · rw [min_eq_left hrw]
          rw [if_pos hr, if_pos (by linarith),
              max_eq_right (le_of_lt hr),
              bandSum_nonpos bs _ t (by linarith) hv']
          ring
        · rw [min_eq_right (le_of_lt hrw)]
          rw [if_pos hw, if_neg (by linarith),
              taxLoop_shift, ih _ t hv',
              max_eq_right (le_of_lt hw)]
          ring

theorem bandSum_mono (bs : List Bracket) :
    ∀ x y p : ℚ, x ≤ y → validFrom p bs = true →
      bandSum x p bs ≤ bandSum y p bs := by
  induction bs with
  | nil => intro x y p _ _; simp [bandSum]
  | cons b bs ih =>
    intro x y p hxy hv
    cases hb : b.thr with
    | none =>
      simp only [validFrom, hb, Bool.and_eq_true, decide_eq_true_eq] at hv
      simp only [bandSum, hb]
      exact mul_le_mul_of_nonneg_left (max_le_max le_rfl hxy) hv.1
    | some t =>
      simp only [validFrom, hb, Bool.and_eq_true, decide_eq_true_eq] at hv
      obtain ⟨⟨hrate, hpt⟩, hv'⟩ := hv
      simp only [bandSum, hb]
      have h1 : b.rate * max 0 (min x (t - p)) ≤ b.rate * max 0 (min y (t - p)) :=
        mul_le_mul_of_nonneg_left (max_le_max le_rfl (min_le_min hxy le_rfl)) hrate
      have h2 : bandSum (x - (t - p)) t bs ≤ bandSum (y - (t - p)) t bs :=
        ih _ _ t (by linarith) hv'
      linarith

/-- Monotonicity of the full engine in taxable income, valid tables. -/
theorem calculate_marginal_tax_mono (bs : List Bracket) (bpa : ℚ)
    {x y : ℚ} (hxy : x ≤ y) (hv : validFrom 0 bs = true) :
    calculate_marginal_tax x bs bpa ≤ calculate_marginal_tax y bs bpa := by
  unfold calculate_marginal_tax
  apply rnd2_mono
  apply max_le_max le_rfl
  have := bandSum_mono bs x y 0 hxy hv
  rw [taxLoop_eq_bandSum bs x 0 hv, taxLoop_eq_bandSum bs y 0 hv]
  linarith

theorem taxLoop_le (bs : List Bracket) :
    ∀ (total r p R : ℚ), 0 ≤ R → (∀ b ∈ bs, b.rate ≤ R) →
      taxLoop total r p bs ≤ total + R * max 0 r := by
  induction bs with
  | nil =>
    intro total r p R hR _
    have : 0 ≤ R * max 0 r := mul_nonneg hR (le_max_left _ _)
    simp only [taxLoop]; linarith
  | cons b bs ih =>
    intro total r p R hR hub
    have hbR : b.rate ≤ R := hub b (List.mem_cons_self b bs)
    have hub' : ∀ b' ∈ bs, b'.rate ≤ R := fun b' hb' => hub b' (List.mem_cons_of_mem b hb')
    cases hb : b.thr with
    | none =>
      simp only [taxLoop, hb]
      split_ifs with h
      · have h1 : r * b.rate ≤ r * R := mul_le_mul_of_nonneg_left hbR (le_of_lt h)
        have h2 : max 0 r = r := max_eq_right (le_of_lt h)
        rw [h2]; linarith
      · have : 0 ≤ R * max 0 r := mul_nonneg hR (le_max_left _ _)
        linarith
    | some t =>
      simp only [taxLoop, hb]
      split_ifs with h1 h2 h3
      · -- band consumed everything: bi > 0, remaining - bi ≤ 0
        have hbi : min r (t - p) ≤ r := min_le_left _ _
        have hle : min r (t - p) * b.rate ≤ min r (t - p) * R :=
          mul_le_mul_of_nonneg_left hbR (le_of_lt h1)
        have hmax : min r (t - p) ≤ max 0 r := le_trans hbi (le_max_right _ _)
        have : R * min r (t - p) ≤ R * max 0 r := mul_le_mul_of_nonneg_left hmax hR
        linarith [mul_comm R (min r (t - p)), mul_comm R (max 0 r)]
      · -- band partially consumed, recurse
        have := ih (total + min r (t - p) * b.rate) (r - min r (t - p)) t R hR hub'
        have hrm : max 0 (r - min r (t - p)) = r - min r (t - p) :=
          max_eq_right (by linarith)
        rw [hrm] at this
        have hle : min r (t - p) * b.rate ≤ min r (t - p) * R :=
          mul_le_mul_of_nonneg_left hbR (le_of_lt h1)
        have hbi : min r (t - p) ≤ r := min_le_left _ _
        have hr0 : 0 < r := by
          by_contra hc
          push_neg at hc
          have : min r (t - p) ≤ 0 := le_trans (min_le_left _ _) hc
          linarith
        have hmax : max 0 r = r := max_eq_right (le_of_lt hr0)
        rw [hmax]
        nlinarith
      · have : 0 ≤ R * max 0 r := mul_nonneg hR (le_max_left _ _)
        linarith
      · exact ih total r t R hR hub'

theorem calculate_marginal_tax_nonneg (x : ℚ) (bs : List Bracket) (bpa : ℚ) :
    0 ≤ calculate_marginal_tax x bs bpa := by
  unfold calculate_marginal_tax
  exact rnd2_nonneg (le_max_left _ _)

/-- Bounding the engine by the largest rate of the table, up to half-cent
rounding slack. -/
theorem calculate_marginal_tax_le (x bpa R : ℚ) (bs : List Bracket)
    (hR : 0 ≤ R) (hub : ∀ b ∈ bs, b.rate ≤ R)
    (hcred : 0 ≤ bpa * (bs.headD ⟨none, 0⟩).rate) :
    calculate_marginal_tax x bs bpa ≤ R * max 0 x + 1/200 := by
  unfold calculate_marginal_tax
  have hT : taxLoop 0 x 0 bs ≤ 0 + R * max 0 x := taxLoop_le bs 0 x 0 R hR hub
  have h1 : max 0 (taxLoop 0 x 0 bs - bpa * (bs.headD ⟨none, 0⟩).rate)
      ≤ R * max 0 x := by
    apply max_le (mul_nonneg hR (le_max_left _ _))
    linarith
  calc rnd2 (max 0 (taxLoop 0 x 0 bs - bpa * (bs.headD ⟨none, 0⟩).rate))
      ≤ rnd2 (R * max 0 x) := rnd2_mono h1
  _ ≤ R * max 0 x + 1/200 := rnd2_le _

/-- Small incomes inside the first band and below the BPA are fully wiped
out by the credit: the engine returns 0. -/
theorem calculate_marginal_tax_zero (x t1 r1 bpa : ℚ) (rest : List Bracket)
    (hx0 : 0 ≤ x) (hxt : x ≤ t1) (hxb : x ≤ bpa) (hr : 0 ≤ r1) :
    calculate_marginal_tax x (⟨some t1, r1⟩ :: rest) bpa = 0 := by
  have hT : taxLoop 0 x 0 (⟨some t1, r1⟩ :: rest) = x * r1 := by
    simp only [taxLoop]
    rw [min_eq_left (by linarith)]
    rcases lt_or_eq_of_le hx0 with hx | hx
    · rw [if_pos hx, if_pos (by linarith)]; ring
    · rw [if_neg (by linarith), if_pos (by linarith)]; rw [← hx]; ring
  have hcred : x * r1 ≤ bpa * r1 := mul_le_mul_of_nonneg_right hxb hr
  simp only [calculate_marginal_tax, List.headD_cons, hT]
  rw [max_eq_left (by linarith), rnd2_zero]

theorem cpp_nonneg (net : ℚ) : 0 ≤ calculate_cpp_self_employed net := by
  unfold calculate_cpp_self_employed
  apply rnd2_nonneg
  have h1 : 0 ≤ max 0 (min net YMPE_CEILING - EXEMPTION_AMOUNT) * SELF_EMPLOYED_RATE_BASE :=
    mul_nonneg (le_max_left _ _) (by norm_num [SELF_EMPLOYED_RATE_BASE])
  split_ifs with h
  · have h2 : 0 ≤ (min net YAMPE_CEILING - YMPE_CEILING) * SELF_EMPLOYED_RATE_CPP2 := by
      apply mul_nonneg _ (by norm_num [SELF_EMPLOYED_RATE_CPP2])
      rw [sub_nonneg, le_min_iff]
      constructor
      · linarith
      · norm_num [YMPE_CEILING, YAMPE_CEILING]
    linarith
  · exact h1

theorem cpp_zero_small {net : ℚ} (h : net ≤ 3500) :
    calculate_cpp_self_employed net = 0 := by
  simp only [calculate_cpp_self_employed]
  rw [if_neg (not_lt.mpr (by simp only [YMPE_CEILING]; linarith))]
  have hmin : min net YMPE_CEILING = net :=
    min_eq_left (by simp only [YMPE_CEILING]; linarith)
  rw [hmin, max_eq_left (by simp only [EXEMPTION_AMOUNT]; linarith), zero_mul, rnd2_zero]

theorem cpp_le {net : ℚ} (h : 0 ≤ net) :
    calculate_cpp_self_employed net ≤ 0.199 * net + 1/200 := by
  unfold calculate_cpp_self_employed
  have hbase : max 0 (min net YMPE_CEILING - EXEMPTION_AMOUNT) ≤ net := by
    apply max_le h
    have : min net YMPE_CEILING ≤ net := min_le_left _ _
    simp only [EXEMPTION_AMOUNT]
    linarith
  have h1 : max 0 (min net YMPE_CEILING - EXEMPTION_AMOUNT) * SELF_EMPLOYED_RATE_BASE
      ≤ 0.119 * net := by
    rw [show (SELF_EMPLOYED_RATE_BASE : ℚ) = 0.119 from rfl, mul_comm]
    exact mul_le_mul_of_nonneg_left hbase (by norm_num)
  have hmain : (if YMPE_CEILING < net then
      max 0 (min net YMPE_CEILING - EXEMPTION_AMOUNT) * SELF_EMPLOYED_RATE_BASE
        + (min net YAMPE_CEILING - YMPE_CEILING) * SELF_EMPLOYED_RATE_CPP2
      else max 0 (min net YMPE_CEILING - EXEMPTION_AMOUNT) * SELF_EMPLOYED_RATE_BASE)
      ≤ 0.199 * net := by
    split_ifs with hc
    · have h2 : (min net YAMPE_CEILING - YMPE_CEILING) * SELF_EMPLOYED_RATE_CPP2
          ≤ 0.08 * net := by
        rw [show (SELF_EMPLOYED_RATE_CPP2 : ℚ) = 0.08 from rfl, mul_comm]
        apply mul_le_mul_of_nonneg_left _ (by norm_num)
        have : min net YAMPE_CEILING ≤ net := min_le_left _ _
        simp only [YMPE_CEILING]
        linarith
      linarith
    · have : 0 ≤ 0.08 * net := by positivity
      linarith
  calc rnd2 _ ≤ _ + 1/200 := rnd2_le _
  _ ≤ 0.199 * net + 1/200 := by linarith

theorem gmrLoop_eq_spec (bs : List Bracket) :
    ∀ p : ℚ, validFrom p bs = true →
      ∀ income : ℚ, gmrLoop income bs = some (marginalRateSpec income bs) := by
  induction bs with
  | nil => intro p hv; simp [validFrom] at hv
  | cons b bs ih =>
    intro p hv income
    cases hb : b.thr with
    | none => simp [gmrLoop, marginalRateSpec, hb]
    | some t =>
      simp only [validFrom, hb, Bool.and_eq_true, decide_eq_true_eq] at hv
      obtain ⟨⟨hrate, hpt⟩, hv'⟩ := hv
      simp only [gmrLoop, marginalRateSpec, hb]
      rcases le_or_lt income t with hle | hgt
      · rw [if_neg (by linarith), if_pos hle]
      · rw [if_pos hgt, if_neg (by linarith)]
        exact ih t hv' income

theorem mk_net_income (g e : ℚ) (c : String) (bs : List Bracket) :
    (mkBreakdown g e c bs).net_income = rnd2 (max 0 (rnd2 g - rnd2 e)) := rfl

theorem mk_cpp_contribution (g e : ℚ) (c : String) (bs : List Bracket) :
    (mkBreakdown g e c bs).cpp_contribution
      = calculate_cpp_self_employed ((mkBreakdown g e c bs).net_income) := rfl

theorem mk_cpp_deduction (g e : ℚ) (c : String) (bs : List Bracket) :
    (mkBreakdown g e c bs).cpp_deduction
      = (mkBreakdown g e c bs).cpp_contribution * 0.5 := rfl

theorem mk_taxable_income (g e : ℚ) (c : String) (bs : List Bracket) :
    (mkBreakdown g e c bs).taxable_income
      = max 0 ((mkBreakdown g e c bs).net_income - (mkBreakdown g e c bs).cpp_deduction) := rfl

theorem mk_federal_tax (g e : ℚ) (c : String) (bs : List Bracket) :
    (mkBreakdown g e c bs).federal_tax
      = calculate_marginal_tax ((mkBreakdown g e c bs).taxable_income)
          FEDERAL_TAX_BRACKETS (bpaLookup "FEDERAL") := rfl

theorem mk_provincial_tax (g e : ℚ) (c : String) (bs : List Bracket) :
    (mkBreakdown g e c bs).provincial_tax
      = calculate_marginal_tax ((mkBreakdown g e c bs).taxable_income) bs (bpaLookup c) := rfl

theorem mk_total_income_tax (g e : ℚ) (c : String) (bs : List Bracket) :
    (mkBreakdown g e c bs).total_income_tax
      = (mkBreakdown g e c bs).federal_tax + (mkBreakdown g e c bs).provincial_tax := rfl

theorem mk_total_remittance (g e : ℚ) (c : String) (bs : List Bracket) :
    (mkBreakdown g e c bs).total_remittance
      = (mkBreakdown g e c bs).total_income_tax + (mkBreakdown g e c bs).cpp_contribution := rfl

theorem mk_take_home_pay (g e : ℚ) (c : String) (bs : List Bracket) :
    (mkBreakdown g e c bs).take_home_pay
      = (mkBreakdown g e c bs).net_income - (mkBreakdown g e c bs).total_remittance := rfl

theorem mk_total_tax_paid (g e : ℚ) (c : String) (bs : List Bracket) :
    (mkBreakdown g e c bs).total_tax_paid
      = (mkBreakdown g e c bs).federal_tax + (mkBreakdown g e c bs).provincial_tax
        + (mkBreakdown g e c bs).cpp_contribution := rfl

theorem mk_average_tax_rate (g e : ℚ) (c : String) (bs : List Bracket) :
    (mkBreakdown g e c bs).average_tax_rate
      = if 0 < (mkBreakdown g e c bs).net_income then
          rnd2 ((mkBreakdown g e c bs).total_tax_paid / (mkBreakdown g e c bs).net_income * 100)
        else 0 := rfl

theorem mk_marginal_tax_rate (g e : ℚ) (c : String) (bs : List Bracket) :
    (mkBreakdown g e c bs).marginal_tax_rate
      = rnd2 ((get_marginal_rate ((mkBreakdown g e c bs).taxable_income) FEDERAL_TAX_BRACKETS
          + get_marginal_rate ((mkBreakdown g e c bs).taxable_income) bs) * 100) := rfl

/-- Destructuring a successful call: the provincial table is a non-empty
lookup result and the record is the orchestrator's record for it. -/
theorem breakdown_eq {g e : ℚ} {code : String} {b : TaxBreakdown}
    (h : calculate_tax_breakdown g e code = some b) :
    ∃ pb pbs, provincialLookup code = pb :: pbs ∧ b = mkBreakdown g e code (pb :: pbs) := by
  unfold calculate_tax_breakdown at h
  rcases hp : provincialLookup code with _ | ⟨pb, pbs⟩
  · rw [hp] at h; exact absurd h (by simp)
  · rw [hp] at h
    simp only [Option.some.injEq] at h
    exact ⟨pb, pbs, rfl, h.symm⟩

theorem provincialLookup_of_not_registered {code : String}
    (h : code ∉ registeredCodes) : provincialLookup code = [] := by
  simp only [registeredCodes, List.mem_cons, List.not_mem_nil, or_false, not_or] at h
  obtain ⟨h1, h2, h3, h4, h5, h6, h7, h8, h9, h10, h11, h12, h13⟩ := h
  simp only [provincialLookup, PROVINCIAL_TAX_BRACKETS, List.lookup,
    beq_eq_false_iff_ne.mpr h1, beq_eq_false_iff_ne.mpr h2, beq_eq_false_iff_ne.mpr h3,
    beq_eq_false_iff_ne.mpr h4, beq_eq_false_iff_ne.mpr h5, beq_eq_false_iff_ne.mpr h6,
    beq_eq_false_iff_ne.mpr h7, beq_eq_false_iff_ne.mpr h8, beq_eq_false_iff_ne.mpr h9,
    beq_eq_false_iff_ne.mpr h10, beq_eq_false_iff_ne.mpr h11, beq_eq_false_iff_ne.mpr h12,
    beq_eq_false_iff_ne.mpr h13]
  rfl

theorem registered_of_lookup_ne_nil {code : String}
    (h : provincialLookup code ≠ []) : code ∈ registeredCodes := by
  by_contra hc
  exact h (provincialLookup_of_not_registered hc)

/-- Core estimate behind non-negative take-home pay: with the shipped
federal table and any provincial table whose first threshold and BPA are
at least 1 and whose rates stay below `0.2575`, the three remittance
components never exceed net income.  Small net incomes (≤ 1) pay nothing
at all; larger ones are covered by the rate bounds `0.33 + 0.2575 + 0.199
< 1` with three half-cent rounding slacks. -/
theorem take_home_core (g e : ℚ) (code : String) (pt1 pr1 : ℚ) (prest : List Bracket)
    (h1 : 1 ≤ pt1) (hr1 : 0 ≤ pr1) (h3 : 1 ≤ bpaLookup code)
    (hub : ∀ b ∈ (⟨some pt1, pr1⟩ : Bracket) :: prest, b.rate ≤ 0.2575) :
    0 ≤ (mkBreakdown g e code (⟨some pt1, pr1⟩ :: prest)).take_home_pay := by
  rw [mk_take_home_pay, mk_total_remittance, mk_total_income_tax, mk_federal_tax,
    mk_provincial_tax, mk_taxable_income, mk_cpp_deduction, mk_cpp_contribution,
    mk_net_income]
  set n := rnd2 (max 0 (rnd2 g - rnd2 e)) with hn
  have hnet : 0 ≤ n := rnd2_nonneg (le_max_left _ _)
  set cpp := calculate_cpp_self_employed n with hcppdef
  have hcpp0 : 0 ≤ cpp := cpp_nonneg n
  set ti := max 0 (n - cpp * 0.5) with hti
  have hti0 : 0 ≤ ti := le_max_left _ _
  have htile : ti ≤ n := max_le hnet (by linarith)
  have hfbpa : bpaLookup "FEDERAL" = 16129 := by with_unfolding_all rfl
  rcases le_or_lt n 1 with hsmall | hbig
  · -- net income at most 1: CPP is zero and both taxes are wiped out by the credits
    have hcppz : cpp = 0 := by rw [hcppdef]; exact cpp_zero_small (by linarith)
    have htin : ti = n := by
      rw [hti, hcppz]
      rw [show n - 0 * 0.5 = n by ring]
      exact max_eq_right hnet
    have hfed : calculate_marginal_tax ti FEDERAL_TAX_BRACKETS (bpaLookup "FEDERAL") = 0 := by
      rw [show FEDERAL_TAX_BRACKETS
          = (⟨some 57375, 0.145⟩ : Bracket) :: [⟨some 114750, 0.205⟩, ⟨some 177882, 0.26⟩,
            ⟨some 253414, 0.29⟩, ⟨none, 0.33⟩] from rfl]
      apply calculate_marginal_tax_zero _ _ _ _ _ hti0
      · rw [htin]; linarith
      · rw [htin, hfbpa]; linarith
      · norm_num
    have hprov : calculate_marginal_tax ti (⟨some pt1, pr1⟩ :: prest) (bpaLookup code) = 0 := by
      apply calculate_marginal_tax_zero _ _ _ _ _ hti0
      · rw [htin]; linarith
      · rw [htin]; linarith
      · exact hr1
    rw [hfed, hprov, hcppz]
    linarith
  · -- net income above 1: bound each component by its top rate
    have hfed : calculate_marginal_tax ti FEDERAL_TAX_BRACKETS (bpaLookup "FEDERAL")
        ≤ 0.33 * max 0 ti + 1/200 := by
      apply calculate_marginal_tax_le
      · norm_num
      · intro b hb; fin_cases hb <;> norm_num
      · rw [hfbpa]
        rw [show ((FEDERAL_TAX_BRACKETS.headD ⟨none, 0⟩).rate : ℚ) = 0.145 from rfl]
        norm_num
    have hprov : calculate_marginal_tax ti (⟨some pt1, pr1⟩ :: prest) (bpaLookup code)
        ≤ 0.2575 * max 0 ti + 1/200 := by
      apply calculate_marginal_tax_le _ _ _ _ (by norm_num) hub
      rw [show ((((⟨some pt1, pr1⟩ : Bracket) :: prest).headD ⟨none, 0⟩).rate : ℚ) = pr1 from rfl]
      exact mul_nonneg (by linarith) hr1
    have hcpple : cpp ≤ 0.199 * n + 1/200 := by rw [hcppdef]; exact cpp_le hnet
    rw [max_eq_right hti0] at hfed hprov
    have h33 : 0.33 * ti ≤ 0.33 * n := by linarith
    have h25 : (0.2575 : ℚ) * ti ≤ 0.2575 * n := by linarith
    linarith

theorem take_home_ok (g e : ℚ) (code : String)
    (hok : tableOK (provincialLookup code) (bpaLookup code) = true)
    {pb : Bracket} {pbs : List Bracket} (hp : provincialLookup code = pb :: pbs) :
    0 ≤ (mkBreakdown g e code (pb :: pbs)).take_home_pay := by
  rw [hp] at hok
  rcases pb with ⟨thr, rate⟩
  cases thr with
  | none => simp [tableOK] at hok
  | some t1 =>
    simp only [tableOK, Bool.and_eq_true, decide_eq_true_eq, List.all_eq_true] at hok
    obtain ⟨⟨⟨h1, h2⟩, h3⟩, hall⟩ := hok
    exact take_home_core g e code t1 rate pbs h1 h2 h3 hall

theorem breakdown_ne_none_of_lookup {g e : ℚ} {code : String}
    (h : (provincialLookup code).isEmpty = false) :
    calculate_tax_breakdown g e code ≠ none := by
  unfold calculate_tax_breakdown
  rcases hp : provincialLookup code with _ | ⟨pb, pbs⟩
  · rw [hp] at h; simp at h
  · simp

/-! ## Claims -/

/-- C1 (counterexample): at gross income 3510, expenses 0, code "ON" —
a registered jurisdiction and non-negative inputs — the call succeeds and
the returned `cpp_deduction` (0.595, half of the 1.19 CPP contribution)
is NOT an exact multiple of 0.01, contradicting the claim that every
monetary intermediate is rounded to 2 decimals at the point of
computation. -/
theorem C1_rounding_counterexample :
    (calculate_tax_breakdown 3510 0 "ON").isSome = true
    ∧ ¬ ∃ n : ℤ,
        ((calculate_tax_breakdown 3510 0 "ON").getD emptyBreakdown).cpp_deduction = n / 100 := by
  constructor
  · with_unfolding_all rfl
  · have hval : ((calculate_tax_breakdown 3510 0 "ON").getD emptyBreakdown).cpp_deduction
        = 119 / 200 := by with_unfolding_all rfl
    rw [hval]
    rintro ⟨n, hn⟩
    rw [div_eq_div_iff (by norm_num) (by norm_num)] at hn
    have h3 : (119 * 100 : ℤ) = n * 200 := by exact_mod_cast hn
    omega

/-- C1 (amended): `net_income` and `cpp_contribution` are rounded to
cents at the point of computation, but `cpp_deduction` and
`taxable_income` are not rounded — they are only guaranteed to be exact
multiples of 0.005 (half of a cent multiple). -/
theorem C1_rounding_amended (g e : ℚ) (code : String) (b : TaxBreakdown)
    (hg : 0 ≤ g) (he : 0 ≤ e) (h : calculate_tax_breakdown g e code = some b) :
    (∃ n : ℤ, b.net_income = n / 100) ∧ (∃ n : ℤ, b.cpp_contribution = n / 100)
    ∧ (∃ n : ℤ, b.cpp_deduction = n / 200) ∧ (∃ n : ℤ, b.taxable_income = n / 200) := by
  obtain ⟨pb, pbs, hp, rfl⟩ := breakdown_eq h
  obtain ⟨k, hk⟩ : ∃ n : ℤ, (mkBreakdown g e code (pb :: pbs)).net_income = n / 100 := by
    rw [mk_net_income]; exact rnd2_cent _
  obtain ⟨m, hm⟩ : ∃ n : ℤ, (mkBreakdown g e code (pb :: pbs)).cpp_contribution = n / 100 := by
    rw [mk_cpp_contribution]
    simp only [calculate_cpp_self_employed]
    exact rnd2_cent _
  refine ⟨⟨k, hk⟩, ⟨m, hm⟩, ⟨m, ?_⟩, ?_⟩
  · rw [mk_cpp_deduction, hm]; ring
  · rw [mk_taxable_income, hk, mk_cpp_deduction, hm]
    rcases le_total ((k:ℚ)/100 - (m:ℚ)/100 * 0.5) 0 with hle | hle
    · exact ⟨0, by rw [max_eq_left hle]; norm_num⟩
    · exact ⟨2*k - m, by rw [max_eq_right hle]; push_cast; ring⟩

theorem C1_rounding_amended_witness :
    (0:ℚ) ≤ 0 ∧ calculate_tax_breakdown 0 0 "ON" = some zeroBreakdownON
    ∧ ((∃ n : ℤ, zeroBreakdownON.net_income = n / 100)
       ∧ (∃ n : ℤ, zeroBreakdownON.cpp_contribution = n / 100)
       ∧ (∃ n : ℤ, zeroBreakdownON.cpp_deduction = n / 200)
       ∧ (∃ n : ℤ, zeroBreakdownON.taxable_income = n / 200)) :=
  ⟨le_refl 0, by with_unfolding_all rfl,
   C1_rounding_amended 0 0 "ON" zeroBreakdownON (le_refl 0) (le_refl 0)
     (by with_unfolding_all rfl)⟩

/-- C2: the call fails (returns `none`, the model of the
`InvalidJurisdiction` `ValueError`) exactly for codes outside the 13
registered provincial keys, and succeeds (with a full record, never a
partial one) for every registered code. -/
theorem C2_invalid_jurisdiction_iff (g e : ℚ) (code : String) :
    calculate_tax_breakdown g e code = none ↔ code ∉ registeredCodes := by
  constructor
  · intro h hcode
    fin_cases hcode <;>
      exact breakdown_ne_none_of_lookup (by with_unfolding_all rfl) h
  · intro h
    unfold calculate_tax_breakdown
    rw [provincialLookup_of_not_registered h]

theorem C2_invalid_jurisdiction_iff_witness :
    calculate_tax_breakdown 100 0 "XX" = none :=
  (C2_invalid_jurisdiction_iff 100 0 "XX").mpr (by decide)

/-- C3: the §8 Scenario 1 figures — gross 60000, expenses 10000, "ON"
give net income 50000, CPP contribution 5533.50, taxable income 47233.25
and federal tax 4510.12 with the shipped reference data. -/
theorem C3_scenario_on :
    (calculate_tax_breakdown 60000 10000 "ON").map TaxBreakdown.net_income = some 50000
    ∧ (calculate_tax_breakdown 60000 10000 "ON").map TaxBreakdown.cpp_contribution = some 5533.50
    ∧ (calculate_tax_breakdown 60000 10000 "ON").map TaxBreakdown.taxable_income = some 47233.25
    ∧ (calculate_tax_breakdown 60000 10000 "ON").map TaxBreakdown.federal_tax = some 4510.12 := by
  refine ⟨?_, ?_, ?_, ?_⟩ <;> with_unfolding_all rfl

/-- C4: for every valid bracket table (non-empty, strictly increasing
thresholds ending at the infinite one, non-negative rates) and any
credit ≥ 0, the tax engine is monotone non-decreasing in taxable income,
through the clamp and the final rounding. -/
theorem C4_computeTax_monotone (bs : List Bracket) (credit x y : ℚ)
    (hv : validFrom 0 bs = true) (hcred : 0 ≤ credit) (hx : 0 ≤ x) (hxy : x ≤ y) :
    calculate_marginal_tax x bs credit ≤ calculate_marginal_tax y bs credit :=
  calculate_marginal_tax_mono bs credit hxy hv

theorem C4_computeTax_monotone_witness :
    validFrom 0 FEDERAL_TAX_BRACKETS = true ∧ (0:ℚ) ≤ 16129 ∧ (0:ℚ) ≤ 60000
    ∧ (60000:ℚ) ≤ 120000
    ∧ calculate_marginal_tax 60000 FEDERAL_TAX_BRACKETS 16129
        ≤ calculate_marginal_tax 120000 FEDERAL_TAX_BRACKETS 16129 :=
  ⟨by with_unfolding_all rfl, by decide, by decide, by decide,
   C4_computeTax_monotone FEDERAL_TAX_BRACKETS 16129 60000 120000
     (by with_unfolding_all rfl) (by decide) (by decide) (by decide)⟩

/-- C5: on valid tables the rate-lookup helper returns the rate of the
first bracket in threshold order whose threshold is ≥ income
(`marginalRateSpec` is a literal transcription of the spec's words,
including the boundary rule that an income exactly at a finite threshold
takes the band ending there, and the infinite-threshold fallback). -/
theorem C5_marginal_rate_contract (bs : List Bracket) (income : ℚ)
    (hv : validFrom 0 bs = true) (hinc : 0 ≤ income) :
    get_marginal_rate income bs = marginalRateSpec income bs := by
  unfold get_marginal_rate
  rw [gmrLoop_eq_spec bs 0 hv income]
  rfl

theorem C5_marginal_rate_contract_witness :
    validFrom 0 FEDERAL_TAX_BRACKETS = true ∧ (0:ℚ) ≤ 57375
    ∧ get_marginal_rate 57375 FEDERAL_TAX_BRACKETS
        = marginalRateSpec 57375 FEDERAL_TAX_BRACKETS :=
  ⟨by with_unfolding_all rfl, by decide,
   C5_marginal_rate_contract FEDERAL_TAX_BRACKETS 57375
     (by with_unfolding_all rfl) (by decide)⟩

/-- C6: the pension computation is continuous at the tier-1 ceiling —
evaluating at net income exactly 71300 through the tier-1-only branch
equals evaluating with the tier-2 branch engaged at zero band width. -/
theorem C6_cpp_continuous_at_ceiling :
    calculate_cpp_self_employed YMPE_CEILING = cpp_with_tier2_branch YMPE_CEILING := by
  with_unfolding_all rfl

/-- C7: the effective-rate computation is total — 0 at zero net income,
`round(100*t/n, 2)` otherwise — and it is exactly what the breakdown
record's `average_tax_rate` field holds, so no division by zero can
propagate out of the orchestrator. -/
theorem C7_effective_rate_total (t n : ℚ) (ht : 0 ≤ t) (hn : 0 ≤ n) :
    average_tax_rate_calc t n = (if n = 0 then 0 else rnd2 (100 * t / n))
    ∧ ∀ (g e : ℚ) (c : String) (bs : List Bracket),
        (mkBreakdown g e c bs).average_tax_rate
          = average_tax_rate_calc ((mkBreakdown g e c bs).total_tax_paid)
              ((mkBreakdown g e c bs).net_income) := by
  constructor
  · unfold average_tax_rate_calc
    rcases eq_or_lt_of_le hn with h0 | h0
    · rw [if_neg (by rw [← h0]; exact lt_irrefl 0), if_pos h0.symm]
    · rw [if_pos h0, if_neg h0.ne']
      congr 1
      field_simp
      ring
  · intro g e c bs; rfl

theorem C7_effective_rate_total_witness :
    (0:ℚ) ≤ 100 ∧ (0:ℚ) ≤ 50
    ∧ average_tax_rate_calc 100 50 = (if (50:ℚ) = 0 then 0 else rnd2 (100 * 100 / 50)) :=
  ⟨by decide, by decide, (C7_effective_rate_total 100 50 (by decide) (by decide)).1⟩

/-- C8: every monetary field of a successful breakdown is non-negative
(take-home pay excluded from the list, being the one field allowed to go
negative). -/
theorem C8_monetary_fields_nonneg (g e : ℚ) (code : String) (b : TaxBreakdown)
    (hg : 0 ≤ g) (he : 0 ≤ e) (h : calculate_tax_breakdown g e code = some b) :
    0 ≤ b.net_income ∧ 0 ≤ b.cpp_contribution ∧ 0 ≤ b.cpp_deduction
    ∧ 0 ≤ b.taxable_income ∧ 0 ≤ b.federal_tax ∧ 0 ≤ b.provincial_tax
    ∧ 0 ≤ b.total_income_tax ∧ 0 ≤ b.total_remittance ∧ 0 ≤ b.total_tax_paid := by
  obtain ⟨pb, pbs, hp, rfl⟩ := breakdown_eq h
  have hnet : 0 ≤ (mkBreakdown g e code (pb :: pbs)).net_income := by
    rw [mk_net_income]; exact rnd2_nonneg (le_max_left _ _)
  have hcpp : 0 ≤ (mkBreakdown g e code (pb :: pbs)).cpp_contribution := by
    rw [mk_cpp_contribution]; exact cpp_nonneg _
  have hded : 0 ≤ (mkBreakdown g e code (pb :: pbs)).cpp_deduction := by
    rw [mk_cpp_deduction]; exact mul_nonneg hcpp (by norm_num)
  have hti : 0 ≤ (mkBreakdown g e code (pb :: pbs)).taxable_income := by
    rw [mk_taxable_income]; exact le_max_left _ _
  have hfed : 0 ≤ (mkBreakdown g e code (pb :: pbs)).federal_tax := by
    rw [mk_federal_tax]; exact calculate_marginal_tax_nonneg _ _ _
  have hprov : 0 ≤ (mkBreakdown g e code (pb :: pbs)).provincial_tax := by
    rw [mk_provincial_tax]; exact calculate_marginal_tax_nonneg _ _ _
  refine ⟨hnet, hcpp, hded, hti, hfed, hprov, ?_, ?_, ?_⟩
  · rw [mk_total_income_tax]; linarith
  · rw [mk_total_remittance, mk_total_income_tax]; linarith
  · rw [mk_total_tax_paid]; linarith

theorem C8_monetary_fields_nonneg_witness :
    (0:ℚ) ≤ 0 ∧ calculate_tax_breakdown 0 0 "ON" = some zeroBreakdownON
    ∧ (0 ≤ zeroBreakdownON.net_income ∧ 0 ≤ zeroBreakdownON.cpp_contribution
       ∧ 0 ≤ zeroBreakdownON.cpp_deduction ∧ 0 ≤ zeroBreakdownON.taxable_income
       ∧ 0 ≤ zeroBreakdownON.federal_tax ∧ 0 ≤ zeroBreakdownON.provincial_tax
       ∧ 0 ≤ zeroBreakdownON.total_income_tax ∧ 0 ≤ zeroBreakdownON.total_remittance
       ∧ 0 ≤ zeroBreakdownON.total_tax_paid) :=
  ⟨le_refl 0, by with_unfolding_all rfl,
   C8_monetary_fields_nonneg 0 0 "ON" zeroBreakdownON (le_refl 0) (le_refl 0)
     (by with_unfolding_all rfl)⟩

/-- C9: the reported combined marginal rate is evaluated at the
post-deduction taxable income — the record's `marginal_tax_rate` always
equals the rounded combined rate looked up at the record's own
`taxable_income`, not at net or gross income. -/
theorem C9_marginal_rate_at_taxable (g e : ℚ) (code : String) (b : TaxBreakdown)
    (h : calculate_tax_breakdown g e code = some b) :
    b.marginal_tax_rate
      = rnd2 ((get_marginal_rate b.taxable_income FEDERAL_TAX_BRACKETS
          + get_marginal_rate b.taxable_income (provincialLookup code)) * 100) := by
  obtain ⟨pb, pbs, hp, rfl⟩ := breakdown_eq h
  rw [hp]
  exact mk_marginal_tax_rate g e code (pb :: pbs)

theorem C9_marginal_rate_at_taxable_witness :
    calculate_tax_breakdown 57400 0 "ON" = some crossBreakdownON
    ∧ crossBreakdownON.marginal_tax_rate
        = rnd2 ((get_marginal_rate crossBreakdownON.taxable_income FEDERAL_TAX_BRACKETS
            + get_marginal_rate crossBreakdownON.taxable_income (provincialLookup "ON")) * 100) :=
  ⟨by with_unfolding_all rfl,
   C9_marginal_rate_at_taxable 57400 0 "ON" crossBreakdownON (by with_unfolding_all rfl)⟩

/-- C10: with the shipped reference data, take-home pay is non-negative
for every non-negative gross income and expenses and every registered
code — the total remittance never exceeds net income. -/
theorem C10_take_home_nonneg (g e : ℚ) (code : String) (b : TaxBreakdown)
    (hg : 0 ≤ g) (he : 0 ≤ e) (h : calculate_tax_breakdown g e code = some b) :
    0 ≤ b.take_home_pay ∧ b.total_remittance ≤ b.net_income := by
  obtain ⟨pb, pbs, hp, rfl⟩ := breakdown_eq h
  have hcode : code ∈ registeredCodes :=
    registered_of_lookup_ne_nil (by rw [hp]; simp)
  have hthp : 0 ≤ (mkBreakdown g e code (pb :: pbs)).take_home_pay := by
    fin_cases hcode <;> exact take_home_ok g e _ (by with_unfolding_all rfl) hp
  refine ⟨hthp, ?_⟩
  rw [mk_take_home_pay] at hthp
  linarith

theorem C10_take_home_nonneg_witness :
    (0:ℚ) ≤ 0 ∧ calculate_tax_breakdown 0 0 "ON" = some zeroBreakdownON
    ∧ (0 ≤ zeroBreakdownON.take_home_pay
       ∧ zeroBreakdownON.total_remittance ≤ zeroBreakdownON.net_income) :=
  ⟨le_refl 0, by with_unfolding_all rfl,
   C10_take_home_nonneg 0 0 "ON" zeroBreakdownON (le_refl 0) (le_refl 0)
     (by with_unfolding_all rfl)⟩

end FreelanceTax
